import Mathlib

/-!
Verification of `rust-lang/promote-release` against its specification.

The definitions below are shallow embeddings of the Rust source:
machine integers (`u32`) become `Nat` with explicit `% 2^32` where overflow
matters, strings become `List Char` or `String`, filesystem state becomes
explicit records, and fallible operations return `Except`/`Option` or carry
an explicit success flag.
-/

namespace PromoteRelease

/-! ## Recompression: `choose_xz_dictsize` (src/recompress.rs) -/
/-- `MAX_XZ_DICTSIZE: u32 = 128 * 1024 * 1024` from src/recompress.rs. -/
def MAX_XZ_DICTSIZE : Nat := 128 * 1024 * 1024

/-- `MIN_XZ_DICTSIZE: u32 = 4096` from `choose_xz_dictsize`. -/
def MIN_XZ_DICTSIZE : Nat := 4096

/-- Rust `u32::clamp(self, lo, hi)`: `lo` if below, `hi` if above, else unchanged. -/
def u32_clamp (x lo hi : Nat) : Nat :=
  if x < lo then lo else if x > hi then hi else x

/-- Rust `u32::is_power_of_two`: nonzero and `n & (n - 1) == 0`. -/
def is_power_of_two (n : Nat) : Bool :=
  n != 0 && (n &&& (n - 1)) == 0

/-- Rust `u32::leading_zeros` for a value `n < 2^32`. -/
def leading_zeros32 (n : Nat) : Nat := 32 - Nat.size n

/-- Rust `u32::wrapping_shr`: the shift amount is taken mod 32. -/
def u32_wrapping_shr (x k : Nat) : Nat := x >>> (k % 32)

/-- Rust `u32` left shift: overflowing value bits are discarded. -/
def u32_shl (x k : Nat) : Nat := (x <<< k) % 2 ^ 32

/-- `sz & (1_u32 << 31).wrapping_shr(sz.leading_zeros())` — the most
significant set bit of `sz` (copy of unstable `isolate_most_significant_one`). -/
def hi_one32 (sz : Nat) : Nat :=
  sz &&& u32_wrapping_shr (1 <<< 31) (leading_zeros32 sz)

/-- Body of `choose_xz_dictsize` after the initial clamp. -/
def choose_xz_core (sz : Nat) : Nat :=
  if is_power_of_two sz then sz
  else if hi_one32 sz ||| (hi_one32 sz >>> 1) ≥ sz then
    hi_one32 sz ||| (hi_one32 sz >>> 1)
  else
    min (u32_shl (hi_one32 sz) 1) MAX_XZ_DICTSIZE

/-- `choose_xz_dictsize` from src/recompress.rs: clamp to
`[MIN_XZ_DICTSIZE, MAX_XZ_DICTSIZE]`, return powers of two unchanged,
otherwise round up to `2^n + 2^(n-1)` if that suffices, else to the next
power of two (clipped to the maximum). -/
def choose_xz_dictsize (sz : Nat) : Nat :=
  choose_xz_core (u32_clamp sz MIN_XZ_DICTSIZE MAX_XZ_DICTSIZE)

/-! ## Release gate (src/main.rs: `do_release`, `current_version_same`)

The gate phase of `do_release` is embedded as a pure function over an
environment that fixes what the external world returns (the live manifest's
version string, the resolved revision, the versions stored inside the
downloaded archives, ...), producing the ordered list of side-effecting
steps executed plus the outcome. -/
inductive Channel
  | stable
  | beta
  | nightly
deriving DecidableEq

/-- One observable side-effecting step of `do_release`, in program order. -/
inductive Event
  | getCommitSha
  | downloadManifest
  | downloadArtifacts
  | checkVersionSame
  | loadVersion
  | recompressStep
  | buildManifestRun
  | pruneStep
  | signStep
  | smokeTestStep
  | publishStep
  | invalidateStep
  | tagStep
deriving DecidableEq

/-- Outcome of a `do_release` run: the three early-return skips (keyed by
which startup check fired), a hard panic, or full completion. -/
inductive ReleaseResult
  | skippedRevUnchanged
  | skippedDatedManifest
  | skippedVersionSame
  | panicked
  | completed
deriving DecidableEq

/-- Environment fixing what the external world returns to `do_release`. -/
structure GateEnv where
  channel : Channel
  bypass_startup_checks : Bool
  rev : List Char
  previousVersion : List Char
  datedManifestExists : Bool
  currentRustcVersion : List Char
  currentCargoVersion : List Char
  componentsPresent : Bool

/-- Rust `str::contains`: substring containment. -/
def contains_str (hay pat : List Char) : Bool := decide (pat <:+: hay)

/-- `"nightly"` as used by the channel-marker sanity check. -/
def nightlyMarker : List Char := "nightly".data

/-- `"beta"` as used by the channel-marker sanity check. -/
def betaMarker : List Char := "beta".data

/-- Rust `s.split(' ').next().unwrap()`: everything before the first space. -/
def first_token (s : List Char) : List Char := s.takeWhile (fun c => c ≠ ' ')

/-- `Context::current_version_same` from src/main.rs: nightly always reports
`false`; otherwise the rustc/cargo versions are read from the downloaded
archives, the channel-marker sanity check may panic (`Except.error`), and
the result compares the first tokens of the previous and current versions. -/
def current_version_same (e : GateEnv) : List Event × Except Unit Bool :=
  if e.channel = Channel.nightly then ([], Except.ok false)
  else
    let prev_version := first_token e.previousVersion
    let current := e.currentRustcVersion
    let current_rustc := first_token current
    let _current_cargo := first_token e.currentCargoVersion
    if (contains_str current nightlyMarker && !contains_str e.previousVersion nightlyMarker)
        || (contains_str current betaMarker && !contains_str e.previousVersion betaMarker) then
      ([Event.loadVersion, Event.loadVersion], Except.error ())
    else
      ([Event.loadVersion, Event.loadVersion], Except.ok (prev_version == current_rustc))

/-- `Context::do_release` from src/main.rs, gate phase onward: the three
startup checks in program order, then the pipeline steps as trace events. -/
def do_release (e : GateEnv) : List Event × ReleaseResult :=
  let tr0 := [Event.getCommitSha, Event.downloadManifest]
  if !e.bypass_startup_checks && contains_str e.previousVersion (e.rev.take 7) then
    (tr0, ReleaseResult.skippedRevUnchanged)
  else if !e.bypass_startup_checks && e.datedManifestExists then
    (tr0, ReleaseResult.skippedDatedManifest)
  else
    let tr1 := tr0 ++ [Event.downloadArtifacts, Event.checkVersionSame] ++
      (current_version_same e).1
    match (current_version_same e).2 with
    | Except.error _ => (tr1, ReleaseResult.panicked)
    | Except.ok same =>
      if same && !e.bypass_startup_checks then
        (tr1, ReleaseResult.skippedVersionSame)
      else if e.channel = Channel.nightly ∧ e.componentsPresent = false then
        (tr1, ReleaseResult.panicked)
      else
        (tr1 ++
          (if e.channel ≠ Channel.nightly then [Event.recompressStep] else []) ++
          [Event.buildManifestRun, Event.pruneStep] ++
          (if e.channel = Channel.nightly then [Event.recompressStep] else []) ++
          [Event.buildManifestRun, Event.buildManifestRun, Event.signStep,
           Event.smokeTestStep, Event.publishStep, Event.invalidateStep,
           Event.tagStep], ReleaseResult.completed)

/-- Concrete environment in which short-circuit A fires. -/
def envC2 : GateEnv :=
  { channel := Channel.stable
    bypass_startup_checks := false
    rev := "abcdefg1234".data
    previousVersion := "1.0 (abcdefg)".data
    datedManifestExists := false
    currentRustcVersion := "1.0".data
    currentCargoVersion := "1.0".data
    componentsPresent := true }

/-- `envC2` with the bypass flag set. -/
def envC2bypass : GateEnv :=
  { envC2 with bypass_startup_checks := true }

/-- No channel marker appears in the current version without also appearing
in the previous version (the sanity check in `current_version_same` does not
trip). -/
def no_marker_flip (e : GateEnv) : Prop :=
  (contains_str e.currentRustcVersion nightlyMarker = true →
    contains_str e.previousVersion nightlyMarker = true) ∧
  (contains_str e.currentRustcVersion betaMarker = true →
    contains_str e.previousVersion betaMarker = true)

/-- Non-nightly environment with equal first version tokens but a channel
marker in the current version that the previous version lacks. -/
def envC3cex : GateEnv :=
  { channel := Channel.stable
    bypass_startup_checks := false
    rev := "0123456789".data
    previousVersion := "1.0 x".data
    datedManifestExists := false
    currentRustcVersion := "1.0 beta".data
    currentCargoVersion := "1.0".data
    componentsPresent := true }

/-- Non-nightly environment with equal first version tokens and no marker
flip, for which the version-equality skip fires. -/
def envC3wit : GateEnv :=
  { channel := Channel.stable
    bypass_startup_checks := false
    rev := "0123456789".data
    previousVersion := "1.0 x".data
    datedManifestExists := false
    currentRustcVersion := "1.0 y".data
    currentCargoVersion := "1.0".data
    componentsPresent := true }

/-- `envC3wit` with the bypass flag set. -/
def envC3bypass : GateEnv :=
  { envC3wit with bypass_startup_checks := true }

/-- `envC3wit` on the nightly channel. -/
def envC3nightly : GateEnv :=
  { envC3wit with channel := Channel.nightly }

/-- Nightly environment whose current version carries a "beta" marker the
previous version lacks. -/
def envC4cex : GateEnv :=
  { channel := Channel.nightly
    bypass_startup_checks := false
    rev := "0123456789".data
    previousVersion := "1.0 x".data
    datedManifestExists := false
    currentRustcVersion := "1.0 beta".data
    currentCargoVersion := "1.0".data
    componentsPresent := true }

/-! ## Pruning (src/main.rs `prune_unused_files`,
src/build_manifest.rs `Execution::new`)

A download directory is a list of entries, each a file name paired with its
byte content. `prune_unused_files` is the loop of src/main.rs lines 416-429:
every entry whose name is not in `shipped_files` is removed, the others are
left as they are. -/
def prune_unused_files (shipped_files : List String)
    (dir : List (String × List Nat)) : List (String × List Nat) :=
  match dir with
  | [] => []
  | entry :: rest =>
    if shipped_files.contains entry.1 then
      entry :: prune_unused_files shipped_files rest
    else
      prune_unused_files shipped_files rest

/-- The shipped-files side channel of `Execution::new`
(src/build_manifest.rs): `some` of the non-empty lines when the side-channel
file exists, `none` when it does not. -/
def execution_shipped_files (fileContents : Option String) :
    Option (List String) :=
  fileContents.map (fun s =>
    (s.splitOn "\n").filter (fun line => !(line.trim.isEmpty)))

/-! ## `recompress_file` (src/recompress.rs)

The filesystem state relevant to one `recompress_file` call: the content of
the `.xz` input, of the sibling `.gz` output (if present), and of the
temporary `.xz_recompressed` sibling (if present). The environment carries
the external compression primitives (as opaque functions) and injectable
failure points for each fallible filesystem operation; `decompress`
returning `none` models a failing XZ decode. Each full decompression of the
input emits a `decompressPass` event. -/
inductive REvent
  | createGz
  | decompressPass
  | createTmp
  | writeTmpFull
  | renameTmpToXz
deriving DecidableEq

structure RFs where
  xz : List Nat
  gz : Option (List Nat)
  tmp : Option (List Nat)
deriving DecidableEq

structure REnv where
  decompress : List Nat → Option (List Nat)
  gzEncode : List Nat → List Nat
  xzEncode : Nat → List Nat → List Nat
  createGzOk : Bool
  writeGzOk : Bool
  createTmpOk : Bool
  writeTmpOk : Bool
  renameOk : Bool

/-- The gzip branch of `recompress_file`: taken when forced or when the
`.gz` destination is missing; decompresses the input once, feeding the gzip
encoder; returns the success flag, the new filesystem, the measured
uncompressed size (`dec_measurements`), and the event trace. -/
def gz_pass (env : REnv) (fs : RFs) (recompress_gz : Bool) :
    Bool × RFs × Option Nat × List REvent :=
  if recompress_gz || fs.gz == none then
    if env.createGzOk then
      match env.decompress fs.xz with
      | none => (false, { fs with gz := some [] }, none,
          [REvent.createGz, REvent.decompressPass])
      | some data =>
        if env.writeGzOk then
          (true, { fs with gz := some (env.gzEncode data) }, some data.length,
            [REvent.createGz, REvent.decompressPass])
        else (false, { fs with gz := some [] }, none,
          [REvent.createGz, REvent.decompressPass])
    else (false, fs, none, [REvent.createGz])
  else (true, fs, none, [])

/-- The xz branch given the known uncompressed size: create the temporary
`.xz_recompressed` sibling, decompress the input once feeding the xz
encoder (tuned by `choose_xz_dictsize`), and record a `writeTmpFull` event
only when the whole stream was written. -/
def xz_pass_sized (env : REnv) (fs : RFs) (in_size : Nat)
    (tr : List REvent) : Bool × RFs × List REvent :=
  let dictsize := choose_xz_dictsize
    (if in_size < 2 ^ 32 then in_size else 2 ^ 32 - 1)
  if env.createTmpOk then
    match env.decompress fs.xz with
    | none => (false, { fs with tmp := some [] },
        tr ++ [REvent.createTmp, REvent.decompressPass])
    | some data =>
      if env.writeTmpOk then
        (true, { fs with tmp := some (env.xzEncode dictsize data) },
          tr ++ [REvent.createTmp, REvent.decompressPass, REvent.writeTmpFull])
      else (false, { fs with tmp := some [] },
        tr ++ [REvent.createTmp, REvent.decompressPass])
  else (false, fs, tr ++ [REvent.createTmp])

/-- The xz branch of `recompress_file`: reuse the gzip pass's measured size
when available, otherwise run `measure_compressed_file` (an extra
decompression with no consumers) to learn it. -/
def xz_pass (env : REnv) (fs : RFs) (meas : Option Nat) :
    Bool × RFs × List REvent :=
  match meas with
  | some n => xz_pass_sized env fs n []
  | none =>
    match env.decompress fs.xz with
    | none => (false, fs, [REvent.decompressPass])
    | some d => xz_pass_sized env fs d.length [REvent.decompressPass]

/-- `recompress_file` from src/recompress.rs: gzip branch, then xz branch,
then — only if xz recompression is enabled and everything succeeded — the
rename of the temporary sibling over the original `.xz` path. -/
def recompress_file (env : REnv) (fs : RFs)
    (recompress_gz recompress_xz : Bool) : Bool × RFs × List REvent :=
  match gz_pass env fs recompress_gz with
  | (false, fs1, _, tr1) => (false, fs1, tr1)
  | (true, fs1, meas, tr1) =>
    if recompress_xz then
      match xz_pass env fs1 meas with
      | (false, fs2, tr2) => (false, fs2, tr1 ++ tr2)
      | (true, fs2, tr2) =>
        if env.renameOk then
          match fs2.tmp with
          | some t => (true, { fs2 with xz := t, tmp := none },
              tr1 ++ tr2 ++ [REvent.renameTmpToXz])
          | none => (false, fs2, tr1 ++ tr2)
        else (false, fs2, tr1 ++ tr2)
    else (true, fs1, tr1)

/-- All-success environment for `recompress_file`, with opaque stand-ins for
the compression primitives. -/
def envRok : REnv :=
  { decompress := fun l => some (l ++ l)
    gzEncode := fun l => l
    xzEncode := fun _ l => l
    createGzOk := true
    writeGzOk := true
    createTmpOk := true
    writeTmpOk := true
    renameOk := true }

/-- `envRok` with the final rename failing. -/
def envRrenameFail : REnv := { envRok with renameOk := false }

/-- Initial filesystem: an `.xz` input, no `.gz`, no temporary file. -/
def fsR : RFs := { xz := [1, 2], gz := none, tmp := none }

/-! ## Signing (src/sign.rs `Signer::generate_sha256`)

The SHA-256 primitive (the `sha2` crate) and path canonicalization are
external collaborators; they enter the embedding as opaque function
parameters. `generate_sha256` writes the cached digest for the file's
canonical path when one exists, otherwise the digest freshly computed from
the bytes read by `sign`. -/
def generate_sha256 (hash : List Nat → String)
    (cache : String → Option String) (canonical : String → String)
    (path : String) (data : List Nat) : String :=
  match cache (canonical path) with
  | some cached => cached
  | none => hash data

/-! ## Configuration (src/config.rs `bool_env`, `Config::from_env`)

The process environment is a partial map from variable names to (unicode)
values. `maybe_env::<String>` looks up the prefixed name (string parsing is
infallible for `String`), and `bool_env` reports mere presence. -/
def ENVIRONMENT_VARIABLE_PREFIX : String := "PROMOTE_RELEASE_"

/-- `maybe_env::<String>` from src/config.rs. -/
def maybe_env_string (env : String → Option String) (name : String) :
    Option String :=
  env (ENVIRONMENT_VARIABLE_PREFIX ++ name)

/-- `bool_env` from src/config.rs: true exactly when the variable is set. -/
def bool_env (env : String → Option String) (name : String) : Bool :=
  (maybe_env_string env name).isSome

/-- The five boolean flags of `Config` read through `bool_env`. -/
structure ConfigFlags where
  bypass_startup_checks : Bool
  recompress_gz : Bool
  recompress_xz : Bool
  skip_cloudfront_invalidations : Bool
  invalidate_fastly : Bool

/-- The `bool_env` lines of `Config::from_env` (src/config.rs). -/
def config_flags_from_env (env : String → Option String) : ConfigFlags :=
  { bypass_startup_checks := bool_env env "BYPASS_STARTUP_CHECKS"
    recompress_gz := bool_env env "RECOMPRESS_GZ"
    recompress_xz := bool_env env "RECOMPRESS_XZ"
    skip_cloudfront_invalidations := bool_env env "SKIP_CLOUDFRONT_INVALIDATIONS"
    invalidate_fastly := bool_env env "INVALIDATE_FASTLY" }

lemma MAX_eq : MAX_XZ_DICTSIZE = 2 ^ 27 := by decide

lemma lor_two_pow_succ (m : Nat) : 2 ^ (m + 1) ||| 2 ^ m = 3 * 2 ^ m := by
  apply Nat.eq_of_testBit_eq
  intro j
  rw [Nat.testBit_lor, Nat.testBit_two_pow, Nat.testBit_two_pow,
    show (3 : Nat) * 2 ^ m = 2 ^ m * (2 ^ 2 - 1) by ring_nf,
    Nat.testBit_mul_pow_two, Nat.testBit_two_pow_sub_one]
  by_cases h1 : m + 1 = j <;> by_cases h2 : m = j <;>
    simp [h1, h2] <;> omega

lemma land_two_pow_pred (k : Nat) : 2 ^ k &&& (2 ^ k - 1) = 0 := by
  apply Nat.eq_of_testBit_eq
  intro j
  rw [Nat.testBit_land, Nat.testBit_two_pow, Nat.testBit_two_pow_sub_one,
    Nat.zero_testBit]
  by_cases h : k = j <;> simp [h]

lemma is_power_of_two_iff (n : Nat) :
    is_power_of_two n = true ↔ ∃ k, n = 2 ^ k := by
  constructor
  · intro h
    rw [is_power_of_two, Bool.and_eq_true, bne_iff_ne, beq_iff_eq] at h
    obtain ⟨hne, hand⟩ := h
    have hn : 0 < n := Nat.pos_of_ne_zero hne
    set L := Nat.log 2 n with hLdef
    have h1 : 2 ^ L ≤ n := Nat.pow_log_le_self 2 hne
    have h2 : n < 2 ^ (L + 1) := Nat.lt_pow_succ_log_self (by norm_num) n
    refine ⟨L, ?_⟩
    by_contra hne2
    have hgt : 2 ^ L < n := lt_of_le_of_ne h1 (Ne.symm hne2)
    have hpow : (2 : Nat) ^ (L + 1) = 2 * 2 ^ L := by rw [pow_succ]; ring
    have hb1 : n.testBit L = true := by
      rw [Nat.testBit_to_div_mod]
      have : n / 2 ^ L = 1 := Nat.div_eq_of_lt_le (by omega) (by omega)
      simp [this]
    have hb2 : (n - 1).testBit L = true := by
      rw [Nat.testBit_to_div_mod]
      have : (n - 1) / 2 ^ L = 1 := Nat.div_eq_of_lt_le (by omega) (by omega)
      simp [this]
    have : (n &&& (n - 1)).testBit L = true := by
      rw [Nat.testBit_land, hb1, hb2]; rfl
    rw [hand, Nat.zero_testBit] at this
    exact Bool.false_ne_true this
  · rintro ⟨k, rfl⟩
    rw [is_power_of_two, Bool.and_eq_true, bne_iff_ne, beq_iff_eq]
    exact ⟨(pow_pos (by norm_num) k).ne', land_two_pow_pred k⟩

lemma hi_one32_eq {L sz : Nat} (hL : L ≤ 31) (h1 : 2 ^ L ≤ sz)
    (h2 : sz < 2 ^ (L + 1)) : hi_one32 sz = 2 ^ L := by
  have hsize : Nat.size sz = L + 1 := by
    have hle : Nat.size sz ≤ L + 1 := Nat.size_le.mpr h2
    have hlt : L < Nat.size sz := Nat.lt_size.mpr h1
    omega
  rw [hi_one32, leading_zeros32, hsize, u32_wrapping_shr]
  have hmod : (32 - (L + 1)) % 32 = 31 - L := by omega
  rw [hmod, Nat.shiftLeft_eq, one_mul, Nat.shiftRight_eq_div_pow,
    Nat.pow_div (by omega) (by norm_num), show 31 - (31 - L) = L by omega]
  rw [Nat.and_two_pow]
  have hpow : (2 : Nat) ^ (L + 1) = 2 * 2 ^ L := by rw [pow_succ]; ring
  have hb : sz.testBit L = true := by
    rw [Nat.testBit_to_div_mod]
    have : sz / 2 ^ L = 1 := Nat.div_eq_of_lt_le (by omega) (by omega)
    simp [this]
  rw [hb]
  simp

lemma no_pow_between {L sz : Nat} (h1 : 2 ^ L < sz) (h2 : sz < 2 ^ (L + 1)) :
    is_power_of_two sz = false := by
  rw [← Bool.not_eq_true, is_power_of_two_iff]
  rintro ⟨k, rfl⟩
  have hk1 : L < k := (Nat.pow_lt_pow_iff_right (by norm_num)).mp h1
  have hk2 : k < L + 1 := (Nat.pow_lt_pow_iff_right (by norm_num)).mp h2
  omega

lemma choose_core_char {L sz : Nat} (h12 : 12 ≤ L) (h26 : L ≤ 26)
    (h1 : 2 ^ L < sz) (h2 : sz < 2 ^ (L + 1)) :
    (sz ≤ 3 * 2 ^ (L - 1) ∧ choose_xz_core sz = 3 * 2 ^ (L - 1)) ∨
    (3 * 2 ^ (L - 1) < sz ∧ choose_xz_core sz = 2 ^ (L + 1)) := by
  have hnp : is_power_of_two sz = false := no_pow_between h1 h2
  have hhi : hi_one32 sz = 2 ^ L := hi_one32_eq (by omega) (le_of_lt h1) h2
  have hshr : hi_one32 sz >>> 1 = 2 ^ (L - 1) := by
    rw [hhi, Nat.shiftRight_eq_div_pow, pow_one,
      show (2 : Nat) ^ L = 2 ^ (L - 1) * 2 by rw [← pow_succ]; congr 1; omega,
      Nat.mul_div_cancel _ (by norm_num)]
  have htwin : hi_one32 sz ||| (hi_one32 sz >>> 1) = 3 * 2 ^ (L - 1) := by
    rw [hshr, hhi, show (2 : Nat) ^ L = 2 ^ ((L - 1) + 1) by congr 1; omega,
      lor_two_pow_succ]
  rw [choose_xz_core, hnp]
  simp only [Bool.false_eq_true, if_false, htwin, ge_iff_le]
  by_cases hbr : sz ≤ 3 * 2 ^ (L - 1)
  · rw [if_pos hbr]
    exact Or.inl ⟨hbr, rfl⟩
  · rw [if_neg hbr]
    refine Or.inr ⟨by omega, ?_⟩
    have hshl : u32_shl (hi_one32 sz) 1 = 2 ^ (L + 1) := by
      rw [u32_shl, hhi, Nat.shiftLeft_eq, pow_one, ← pow_succ]
      exact Nat.mod_eq_of_lt (Nat.pow_lt_pow_right (by norm_num) (by omega))
    rw [hshl, MAX_eq]
    exact Nat.min_eq_left (Nat.pow_le_pow_right (by norm_num) (by omega))

lemma clamp_id {sz : Nat} (h1 : 4096 ≤ sz) (h2 : sz ≤ 2 ^ 27) :
    u32_clamp sz MIN_XZ_DICTSIZE MAX_XZ_DICTSIZE = sz := by
  rw [u32_clamp, MIN_XZ_DICTSIZE, MAX_XZ_DICTSIZE]
  rw [if_neg (by omega), if_neg (by norm_num; omega)]

lemma choose_pow2 {n : Nat} (hn1 : 12 ≤ n) (hn2 : n ≤ 27) :
    choose_xz_dictsize (2 ^ n) = 2 ^ n := by
  rw [choose_xz_dictsize, clamp_id
    (le_trans (by norm_num) (Nat.pow_le_pow_right (by norm_num) hn1))
    (Nat.pow_le_pow_right (by norm_num) hn2)]
  rw [choose_xz_core, if_pos ((is_power_of_two_iff _).mpr ⟨n, rfl⟩)]

lemma choose_threehalves {L : Nat} (h12 : 12 ≤ L) (h26 : L ≤ 26) :
    choose_xz_dictsize (3 * 2 ^ (L - 1)) = 3 * 2 ^ (L - 1) := by
  have e1 : (2 : Nat) ^ L = 2 ^ (L - 1) * 2 := by
    rw [← pow_succ]; congr 1; omega
  have e2 : (2 : Nat) ^ (L + 1) = 2 ^ (L - 1) * 4 := by
    rw [show L + 1 = (L - 1) + 2 by omega, pow_add]; norm_num
  have hp : (0 : Nat) < 2 ^ (L - 1) := Nat.pos_pow_of_pos _ (by norm_num)
  have h1 : 2 ^ L < 3 * 2 ^ (L - 1) := by rw [e1]; omega
  have h2 : 3 * 2 ^ (L - 1) < 2 ^ (L + 1) := by rw [e2]; omega
  have hlow : 4096 ≤ 3 * 2 ^ (L - 1) := by
    have : (2 : Nat) ^ 12 ≤ 2 ^ L := Nat.pow_le_pow_right (by norm_num) h12
    omega
  have hhigh : 3 * 2 ^ (L - 1) ≤ 2 ^ 27 := by
    have : (2 : Nat) ^ (L + 1) ≤ 2 ^ 27 := Nat.pow_le_pow_right (by norm_num) (by omega)
    omega
  rw [choose_xz_dictsize, clamp_id hlow hhigh]
  rcases choose_core_char h12 h26 h1 h2 with ⟨_, he⟩ | ⟨hc, _⟩
  · exact he
  · omega

/-- C1: for every `u32` input `sz`, `choose_xz_dictsize sz` is a power of two
or the sum of two adjacent powers of two, lies within
`[4096, MAX_XZ_DICTSIZE]`, is at least `sz` whenever `sz ≤ MAX_XZ_DICTSIZE`,
and is idempotent. -/
theorem choose_xz_dictsize_spec (sz : Nat) (hsz : sz < 2 ^ 32) :
    (∃ n, 0 < n ∧ (choose_xz_dictsize sz = 2 ^ n ∨
        choose_xz_dictsize sz = 2 ^ n + 2 ^ (n - 1))) ∧
    4096 ≤ choose_xz_dictsize sz ∧
    choose_xz_dictsize sz ≤ MAX_XZ_DICTSIZE ∧
    (sz ≤ MAX_XZ_DICTSIZE → sz ≤ choose_xz_dictsize sz) ∧
    choose_xz_dictsize (choose_xz_dictsize sz) = choose_xz_dictsize sz := by
  by_cases hlo : sz < 4096
  · have hd : choose_xz_dictsize sz = 4096 := by
      rw [choose_xz_dictsize, u32_clamp, MIN_XZ_DICTSIZE, if_pos hlo,
        choose_xz_core, if_pos (show is_power_of_two 4096 = true by decide)]
    refine ⟨⟨12, by norm_num, Or.inl (by rw [hd]; norm_num)⟩, ?_, ?_, ?_, ?_⟩
    · omega
    · rw [hd]; decide
    · intro _; omega
    · rw [hd, show (4096 : Nat) = 2 ^ 12 by norm_num]
      exact choose_pow2 (by norm_num) (by norm_num)
  · by_cases hhi : MAX_XZ_DICTSIZE < sz
    · have hd : choose_xz_dictsize sz = MAX_XZ_DICTSIZE := by
        rw [choose_xz_dictsize, u32_clamp, if_neg (by rw [MIN_XZ_DICTSIZE]; omega),
          if_pos hhi, choose_xz_core,
          if_pos (show is_power_of_two MAX_XZ_DICTSIZE = true by decide)]
      refine ⟨⟨27, by norm_num, Or.inl (by rw [hd, MAX_eq])⟩, ?_, ?_, ?_, ?_⟩
      · rw [hd]; decide
      · omega
      · intro h; omega
      · rw [hd, MAX_eq]
        exact choose_pow2 (by norm_num) (by norm_num)
    · have hlo' : 4096 ≤ sz := by omega
      have hhi' : sz ≤ 2 ^ 27 := by rw [MAX_eq] at hhi; omega
      have hd : choose_xz_dictsize sz = choose_xz_core sz := by
        rw [choose_xz_dictsize, clamp_id hlo' hhi']
      by_cases hp : is_power_of_two sz = true
      · obtain ⟨k, hk⟩ := (is_power_of_two_iff sz).mp hp
        have e12 : (2 : Nat) ^ 12 = 4096 := by norm_num
        have e27 : (2 : Nat) ^ 27 = 134217728 := by norm_num
        have hk1 : 12 ≤ k := by
          by_contra h
          have : (2 : Nat) ^ k < 2 ^ 12 :=
            Nat.pow_lt_pow_right (by norm_num) (by omega)
          omega
        have hk2 : k ≤ 27 := by
          by_contra h
          have : (2 : Nat) ^ 27 < 2 ^ k :=
            Nat.pow_lt_pow_right (by norm_num) (by omega)
          omega
        have hds : choose_xz_dictsize sz = sz := by
          rw [hd, choose_xz_core, if_pos hp]
        refine ⟨⟨k, by omega, Or.inl (by rw [hds, hk])⟩, ?_, ?_, ?_, ?_⟩
        · omega
        · rw [hds, MAX_eq]; omega
        · intro _; omega
        · rw [hds, hk]; exact choose_pow2 hk1 hk2
      · have hnz : sz ≠ 0 := by omega
        set L := Nat.log 2 sz with hLdef
        have hL1 : 2 ^ L ≤ sz := Nat.pow_log_le_self 2 hnz
        have hL2 : sz < 2 ^ (L + 1) := Nat.lt_pow_succ_log_self (by norm_num) sz
        have hne : sz ≠ 2 ^ L := by
          intro h
          exact hp ((is_power_of_two_iff sz).mpr ⟨L, h⟩)
        have h1' : 2 ^ L < sz := lt_of_le_of_ne hL1 (Ne.symm hne)
        have hne27 : sz ≠ 2 ^ 27 := by
          intro h
          exact hp ((is_power_of_two_iff sz).mpr ⟨27, h⟩)
        have h12 : 12 ≤ L := by
          by_contra h
          have : (2 : Nat) ^ (L + 1) ≤ 2 ^ 12 :=
            Nat.pow_le_pow_right (by norm_num) (by omega)
          have e12 : (2 : Nat) ^ 12 = 4096 := by norm_num
          omega
        have h26 : L ≤ 26 := by
          by_contra h
          have : (2 : Nat) ^ 27 ≤ 2 ^ L :=
            Nat.pow_le_pow_right (by norm_num) (by omega)
          have e27 : (2 : Nat) ^ 27 = 134217728 := by norm_num
          omega
        have e1 : (2 : Nat) ^ L = 2 ^ (L - 1) * 2 := by
          rw [← pow_succ]; congr 1; omega
        have e2 : (2 : Nat) ^ (L + 1) = 2 ^ (L - 1) * 4 := by
          rw [show L + 1 = (L - 1) + 2 by omega, pow_add]; norm_num
        have hple : (2 : Nat) ^ (L + 1) ≤ 2 ^ 27 :=
          Nat.pow_le_pow_right (by norm_num) (by omega)
        rcases choose_core_char h12 h26 h1' hL2 with ⟨hb, he⟩ | ⟨hb, he⟩
        · have hsum : 3 * 2 ^ (L - 1) = 2 ^ L + 2 ^ (L - 1) := by
            rw [e1]; ring
          refine ⟨⟨L, by omega, Or.inr (by rw [hd, he, hsum])⟩, ?_, ?_, ?_, ?_⟩
          · rw [hd, he]; omega
          · rw [hd, he, MAX_eq]; omega
          · intro _; rw [hd, he]; omega
          · rw [hd, he]; exact choose_threehalves h12 h26
        · refine ⟨⟨L + 1, by omega, Or.inl (by rw [hd, he])⟩, ?_, ?_, ?_, ?_⟩
          · rw [hd, he]; omega
          · rw [hd, he, MAX_eq]; omega
          · intro _; rw [hd, he]; omega
          · rw [hd, he]; exact choose_pow2 (by omega) (by omega)

/-- Witness for `choose_xz_dictsize_spec` at the concrete input `sz = 5000`. -/
theorem choose_xz_dictsize_spec_witness :
    (∃ n, 0 < n ∧ (choose_xz_dictsize 5000 = 2 ^ n ∨
        choose_xz_dictsize 5000 = 2 ^ n + 2 ^ (n - 1))) ∧
    4096 ≤ choose_xz_dictsize 5000 ∧
    choose_xz_dictsize 5000 ≤ MAX_XZ_DICTSIZE ∧
    (5000 ≤ MAX_XZ_DICTSIZE → 5000 ≤ choose_xz_dictsize 5000) ∧
    choose_xz_dictsize (choose_xz_dictsize 5000) = choose_xz_dictsize 5000 :=
  choose_xz_dictsize_spec 5000 (by norm_num)

/-- C2: with the bypass flag unset, if the previous version string contains
the first 7 characters of the resolved revision, `do_release` returns the
"revision unchanged" skip having performed only the revision resolution and
the manifest download — no artifact download, recompression, signing or
publication; with the bypass flag set this short-circuit never fires. -/
theorem do_release_rev_unchanged_skip :
    (∀ e : GateEnv, e.bypass_startup_checks = false →
      contains_str e.previousVersion (e.rev.take 7) = true →
      (do_release e).1 = [Event.getCommitSha, Event.downloadManifest] ∧
      (do_release e).2 = ReleaseResult.skippedRevUnchanged ∧
      Event.downloadArtifacts ∉ (do_release e).1 ∧
      Event.recompressStep ∉ (do_release e).1 ∧
      Event.signStep ∉ (do_release e).1 ∧
      Event.publishStep ∉ (do_release e).1) ∧
    (∀ e : GateEnv, e.bypass_startup_checks = true →
      (do_release e).2 ≠ ReleaseResult.skippedRevUnchanged) := by
  constructor
  · intro e hb hc
    have h : do_release e = ([Event.getCommitSha, Event.downloadManifest],
        ReleaseResult.skippedRevUnchanged) := by
      rw [do_release]
      simp [hb, hc]
    rw [h]
    exact ⟨rfl, rfl, by simp, by simp, by simp, by simp⟩
  · intro e hb
    rw [do_release]
    simp only [hb, Bool.not_true, Bool.false_and, Bool.false_eq_true, if_false]
    rcases hcv : (current_version_same e).2 with u | same
    · simp
    · simp only [Bool.and_false]
      split
      · simp
      · split
        · simp
        · simp

/-- Witness for `do_release_rev_unchanged_skip` at concrete environments. -/
theorem do_release_rev_unchanged_skip_witness :
    (do_release envC2).2 = ReleaseResult.skippedRevUnchanged ∧
    (do_release envC2bypass).2 ≠ ReleaseResult.skippedRevUnchanged :=
  ⟨(do_release_rev_unchanged_skip.1 envC2 rfl (by decide)).2.1,
   do_release_rev_unchanged_skip.2 envC2bypass rfl⟩

/-- C3 counterexample: a stable run with bypass unset and equal first
version tokens on which `do_release` panics (channel-switch sanity check)
instead of returning the claimed skip. -/
theorem do_release_version_same_counterexample :
    envC3cex.bypass_startup_checks = false ∧
    envC3cex.channel ≠ Channel.nightly ∧
    first_token envC3cex.currentRustcVersion =
      first_token envC3cex.previousVersion ∧
    (do_release envC3cex).2 = ReleaseResult.panicked := by decide

/-- C3 (amended): for a non-nightly run with bypass unset, equal first
version tokens, and no channel-marker flip, `do_release` returns one of the
three skips; the artifact download and `current_version_same` execute before
the bypass flag is consulted (the trace begins with them even when the flag
is set); and on nightly the version-equality check never causes a skip. -/
theorem do_release_version_same_gate :
    (∀ e : GateEnv, e.bypass_startup_checks = false →
      e.channel ≠ Channel.nightly →
      first_token e.currentRustcVersion = first_token e.previousVersion →
      no_marker_flip e →
      ((do_release e).2 = ReleaseResult.skippedRevUnchanged ∨
       (do_release e).2 = ReleaseResult.skippedDatedManifest ∨
       (do_release e).2 = ReleaseResult.skippedVersionSame)) ∧
    (∀ e : GateEnv, e.bypass_startup_checks = true →
      (do_release e).1.take 4 = [Event.getCommitSha, Event.downloadManifest,
        Event.downloadArtifacts, Event.checkVersionSame]) ∧
    (∀ e : GateEnv, e.channel = Channel.nightly →
      (do_release e).2 ≠ ReleaseResult.skippedVersionSame) := by
  refine ⟨?_, ?_, ?_⟩
  · intro e hb hch htok hflip
    have hcv : (current_version_same e).2 = Except.ok true := by
      rcases hflip with ⟨f1, f2⟩
      cases h1 : contains_str e.currentRustcVersion nightlyMarker <;>
        cases h2 : contains_str e.currentRustcVersion betaMarker <;>
          simp_all [current_version_same]
    by_cases hA : contains_str e.previousVersion (e.rev.take 7) = true
    · refine Or.inl ?_
      rw [do_release]
      simp [hb, hA]
    · by_cases hB : e.datedManifestExists = true
      · refine Or.inr (Or.inl ?_)
        rw [do_release]
        simp [hb, hA, hB]
      · refine Or.inr (Or.inr ?_)
        rw [do_release]
        simp [hb, hA, hB, hcv]
  · intro e hb
    rw [do_release]
    simp only [hb, Bool.not_true, Bool.false_and, Bool.false_eq_true, if_false]
    rcases hcv : (current_version_same e).2 with u | same
    · simp
    · simp only [Bool.and_false]
      split
      · simp
      · split
        · simp
        · simp
  · intro e hch
    have hcv : (current_version_same e).2 = Except.ok false := by
      simp [current_version_same, hch]
    rw [do_release]
    simp only [hcv, Bool.false_and, Bool.false_eq_true, if_false]
    split
    · simp
    · split
      · simp
      · split <;> simp

/-- Witness for `do_release_version_same_gate` at concrete environments. -/
theorem do_release_version_same_gate_witness :
    ((do_release envC3wit).2 = ReleaseResult.skippedRevUnchanged ∨
     (do_release envC3wit).2 = ReleaseResult.skippedDatedManifest ∨
     (do_release envC3wit).2 = ReleaseResult.skippedVersionSame) ∧
    (do_release envC3bypass).1.take 4 = [Event.getCommitSha,
      Event.downloadManifest, Event.downloadArtifacts,
      Event.checkVersionSame] ∧
    (do_release envC3nightly).2 ≠ ReleaseResult.skippedVersionSame :=
  ⟨do_release_version_same_gate.1 envC3wit rfl (by decide) (by decide)
      ⟨by decide, by decide⟩,
   do_release_version_same_gate.2.1 envC3bypass rfl,
   do_release_version_same_gate.2.2 envC3nightly rfl⟩

/-- C4 counterexample: the channel markers flip between the current and
previous version strings, yet on the nightly channel `current_version_same`
returns without any fatal abort and `do_release` completes silently. -/
theorem current_version_same_counterexample :
    (contains_str envC4cex.currentRustcVersion betaMarker = true ∧
     contains_str envC4cex.previousVersion betaMarker = false) ∧
    (current_version_same envC4cex).2 = Except.ok false ∧
    (do_release envC4cex).2 ≠ ReleaseResult.panicked :=
  ⟨⟨by decide, by decide⟩, rfl, by decide⟩

/-- C4 (amended): on a non-nightly channel, whenever the current version
string contains a channel marker ("nightly" or "beta") that the previous
version string lacks, `current_version_same` raises a fatal abort — never a
silent skip, never a silent proceed. -/
theorem current_version_same_channel_switch_panics :
    ∀ e : GateEnv, e.channel ≠ Channel.nightly →
      ((contains_str e.currentRustcVersion nightlyMarker = true ∧
        contains_str e.previousVersion nightlyMarker = false) ∨
       (contains_str e.currentRustcVersion betaMarker = true ∧
        contains_str e.previousVersion betaMarker = false)) →
      (current_version_same e).2 = Except.error () := by
  intro e hch hflip
  rcases hflip with ⟨f1, f2⟩ | ⟨f1, f2⟩ <;>
    simp [current_version_same, hch, f1, f2]

/-- Witness for `current_version_same_channel_switch_panics` at `envC3cex`. -/
theorem current_version_same_channel_switch_panics_witness :
    (current_version_same envC3cex).2 = Except.error () :=
  current_version_same_channel_switch_panics envC3cex (by decide)
    (Or.inr ⟨by decide, by decide⟩)

/-- C5: `Execution::new` does produce `none` when the side-channel file is
missing, but the `prune_unused_files` in src/main.rs takes a bare set and
has no skip path: on the `none`-like empty set it removes every file instead
of skipping pruning. (The call site passes `&Option<HashSet<_>>` to a
parameter of type `&HashSet<PathBuf>`: the `None`-skip branch is absent.) -/
theorem prune_unused_files_no_skip :
    execution_shipped_files none = none ∧
    prune_unused_files [] [("rustc-nightly.tar.xz", [1])] = [] :=
  ⟨rfl, rfl⟩

/-- C6: after pruning, an entry of the directory survives if and only if its
file name is in the shipped-files set, and surviving entries keep exactly
their prior content (the name-content pair is unchanged). -/
theorem prune_unused_files_spec :
    ∀ (shipped_files : List String) (dir : List (String × List Nat))
      (entry : String × List Nat),
      entry ∈ prune_unused_files shipped_files dir ↔
        entry ∈ dir ∧ shipped_files.contains entry.1 = true := by
  intro s dir e
  induction dir with
  | nil => simp [prune_unused_files]
  | cons a rest ih =>
    rw [prune_unused_files]
    by_cases h : s.contains a.1 = true
    · rw [if_pos h]
      have hm : a.1 ∈ s := by simpa using h
      by_cases he : e = a <;> simp [List.mem_cons, he, h, hm, ih]
    · rw [if_neg h]
      have hm : ¬ a.1 ∈ s := by simpa using h
      rw [ih]
      by_cases he : e = a <;> simp [List.mem_cons, he, h, hm]

lemma gz_pass_xz (env : REnv) (fs : RFs) (r : Bool) :
    (gz_pass env fs r).2.1.xz = fs.xz := by
  rw [gz_pass]
  split
  · split
    · split
      · rfl
      · split <;> rfl
    · rfl
  · rfl

lemma xz_pass_sized_xz (env : REnv) (fs : RFs) (n : Nat) (tr : List REvent) :
    (xz_pass_sized env fs n tr).2.1.xz = fs.xz := by
  simp only [xz_pass_sized]
  split
  · split
    · rfl
    · split <;> rfl
  · rfl

lemma xz_pass_xz (env : REnv) (fs : RFs) (meas : Option Nat) :
    (xz_pass env fs meas).2.1.xz = fs.xz := by
  cases meas with
  | some n => exact xz_pass_sized_xz env fs n []
  | none =>
    cases hd : env.decompress fs.xz with
    | none => simp [xz_pass, hd]
    | some d => simp only [xz_pass, hd]
                exact xz_pass_sized_xz env fs d.length [REvent.decompressPass]

lemma xz_pass_sized_success {env : REnv} {fs : RFs} {n : Nat}
    {tr : List REvent} {fs2 : RFs} {tr2 : List REvent}
    (h : xz_pass_sized env fs n tr = (true, fs2, tr2)) :
    ∃ data d, env.decompress fs.xz = some data ∧
      fs2 = { fs with tmp := some (env.xzEncode d data) } ∧
      tr2 = tr ++ [REvent.createTmp, REvent.decompressPass,
        REvent.writeTmpFull] := by
  simp only [xz_pass_sized] at h
  cases hc : env.createTmpOk with
  | false => simp only [hc] at h; simp at h
  | true =>
    simp only [hc, if_true] at h
    cases hd : env.decompress fs.xz with
    | none => simp only [hd] at h; simp at h
    | some data =>
      simp only [hd] at h
      cases hw : env.writeTmpOk with
      | false => simp only [hw] at h; simp at h
      | true =>
        simp only [hw, if_true] at h
        injection h with h1 h23
        injection h23 with h2 h3
        exact ⟨data, _, rfl, h2.symm, h3.symm⟩

lemma xz_pass_success {env : REnv} {fs : RFs} {meas : Option Nat}
    {fs2 : RFs} {tr2 : List REvent}
    (h : xz_pass env fs meas = (true, fs2, tr2)) :
    ∃ data d l, env.decompress fs.xz = some data ∧
      fs2 = { fs with tmp := some (env.xzEncode d data) } ∧
      tr2 = l ++ [REvent.writeTmpFull] := by
  cases meas with
  | some n =>
    obtain ⟨data, d, hd, hfs, htr⟩ := xz_pass_sized_success h
    exact ⟨data, d, [REvent.createTmp, REvent.decompressPass], hd, hfs,
      by rw [htr]; simp⟩
  | none =>
    rw [xz_pass] at h
    cases hd0 : env.decompress fs.xz with
    | none => simp only [hd0] at h; simp at h
    | some d0 =>
      simp only [hd0] at h
      obtain ⟨data, d, hd, hfs, htr⟩ := xz_pass_sized_success h
      exact ⟨data, d, REvent.decompressPass ::
        [REvent.createTmp, REvent.decompressPass],
        by rw [hd0] at hd; exact hd, hfs,
        by rw [htr]; simp⟩

lemma gz_pass_taken_success {env : REnv} {fs : RFs} {r : Bool} {fs1 : RFs}
    {meas : Option Nat} {tr1 : List REvent}
    (ht : (r || fs.gz == none) = true)
    (h : gz_pass env fs r = (true, fs1, meas, tr1)) :
    ∃ data, env.decompress fs.xz = some data ∧ meas = some data.length ∧
      tr1 = [REvent.createGz, REvent.decompressPass] := by
  rw [gz_pass, if_pos ht] at h
  cases hc : env.createGzOk with
  | false => simp only [hc] at h; simp at h
  | true =>
    simp only [hc, if_true] at h
    cases hd : env.decompress fs.xz with
    | none => simp only [hd] at h; simp at h
    | some data =>
      simp only [hd] at h
      cases hw : env.writeGzOk with
      | false => simp only [hw] at h; simp at h
      | true =>
        simp only [hw, if_true] at h
        injection h with h1 h2
        injection h2 with h2 h3
        injection h3 with h3 h4
        exact ⟨data, rfl, h3.symm, h4.symm⟩

/-- C7 counterexample: with both the gzip and the recompressed xz output
produced in one successful `recompress_file` call, the primary input is
fully decompressed twice (once per compressor), not once. -/
theorem recompress_file_single_pass_counterexample :
    (recompress_file envRok fsR true true).1 = true ∧
    (recompress_file envRok fsR true true).2.2.count
      REvent.decompressPass = 2 :=
  ⟨rfl, rfl⟩

/-- C7 (amended): whenever one successful `recompress_file` call produces
both the gzip output (branch taken) and the recompressed xz output, the
input is decompressed exactly twice — one pass feeding each compressor —
and no third measurement-only decompression occurs, because the xz branch
reuses the size measured during the gzip pass. -/
theorem recompress_file_two_pass :
    ∀ (env : REnv) (fs : RFs) (rgz rxz : Bool),
      (recompress_file env fs rgz rxz).1 = true →
      (rgz || fs.gz == none) = true → rxz = true →
      (recompress_file env fs rgz rxz).2.2.count REvent.decompressPass = 2 := by
  intro env fs rgz rxz hs ht hx
  subst hx
  rcases hg : gz_pass env fs rgz with ⟨ok1, fs1, meas, tr1⟩
  cases ok1 with
  | false =>
    rw [recompress_file] at hs
    simp only [hg] at hs
    exact absurd hs (by decide)
  | true =>
    obtain ⟨data, hd, hm, htr1⟩ := gz_pass_taken_success ht hg
    subst hm
    rcases hxp : xz_pass env fs1 (some data.length) with ⟨ok2, fs2, tr2⟩
    cases ok2 with
    | false =>
      rw [recompress_file] at hs
      simp only [hg, hxp, if_true] at hs
      exact absurd hs (by decide)
    | true =>
      have htr2 : tr2 = [REvent.createTmp, REvent.decompressPass,
          REvent.writeTmpFull] := by
        have h' : xz_pass_sized env fs1 data.length [] = (true, fs2, tr2) := hxp
        obtain ⟨data2, d2, _, _, htr⟩ := xz_pass_sized_success h'
        simpa using htr
      cases hrn : env.renameOk with
      | false =>
        rw [recompress_file] at hs
        simp only [hg, hxp, hrn, if_true] at hs
        simp at hs
      | true =>
        obtain ⟨data2, d2, l2, hd2, hfseq, _⟩ := xz_pass_success hxp
        have hmt : fs2.tmp = some (env.xzEncode d2 data2) := by rw [hfseq]
        rw [recompress_file]
        simp only [hg, hxp, hrn, hmt, if_true]
        rw [htr1, htr2]
        decide

/-- Witness for `recompress_file_two_pass` at a concrete all-success run. -/
theorem recompress_file_two_pass_witness :
    (recompress_file envRok fsR true true).1 = true ∧
    (recompress_file envRok fsR true true).2.2.count
      REvent.decompressPass = 2 ∧
    (true || (fsR.gz == none)) = true :=
  ⟨rfl, recompress_file_two_pass envRok fsR true true rfl rfl rfl, rfl⟩

/-- C8: if `recompress_file` returns an error, the `.xz` input's bytes are
unchanged; on success with xz recompression enabled, the final `.xz`
content is the fully recompressed stream and the trace renames the
temporary sibling over the original only immediately after the whole
stream was written. -/
theorem recompress_file_atomic :
    ∀ (env : REnv) (fs : RFs) (rgz rxz : Bool),
      ((recompress_file env fs rgz rxz).1 = false →
        (recompress_file env fs rgz rxz).2.1.xz = fs.xz) ∧
      ((recompress_file env fs rgz rxz).1 = true → rxz = true →
        ∃ l data d, env.decompress fs.xz = some data ∧
          (recompress_file env fs rgz rxz).2.2 =
            l ++ [REvent.writeTmpFull, REvent.renameTmpToXz] ∧
          (recompress_file env fs rgz rxz).2.1.xz = env.xzEncode d data) := by
  intro env fs rgz rxz
  rcases hg : gz_pass env fs rgz with ⟨ok1, fs1, meas, tr1⟩
  have hfs1 : fs1.xz = fs.xz := by
    have hx := gz_pass_xz env fs rgz
    rw [hg] at hx
    exact hx
  cases ok1 with
  | false =>
    rw [recompress_file]
    simp only [hg]
    exact ⟨fun _ => hfs1, fun hs => by simp at hs⟩
  | true =>
    cases rxz with
    | false =>
      rw [recompress_file]
      simp only [hg, Bool.false_eq_true, if_false]
      exact ⟨fun hs => by simp at hs, fun _ hx => by simp at hx⟩
    | true =>
      rcases hxp : xz_pass env fs1 meas with ⟨ok2, fs2, tr2⟩
      have hfs2 : fs2.xz = fs1.xz := by
        have hx := xz_pass_xz env fs1 meas
        rw [hxp] at hx
        exact hx
      cases ok2 with
      | false =>
        rw [recompress_file]
        simp only [hg, hxp, if_true]
        exact ⟨fun _ => by rw [hfs2, hfs1], fun hs => by simp at hs⟩
      | true =>
        obtain ⟨data, d, l, hd, hfseq, htr2⟩ := xz_pass_success hxp
        rw [hfs1] at hd
        cases hrn : env.renameOk with
        | false =>
          rw [recompress_file]
          simp only [hg, hxp, hrn, if_true, Bool.false_eq_true, if_false]
          exact ⟨fun _ => by rw [hfs2, hfs1], fun hs => by simp at hs⟩
        | true =>
          have hmt : fs2.tmp = some (env.xzEncode d data) := by
            rw [hfseq]
          rw [recompress_file]
          simp only [hg, hxp, hrn, hmt, if_true]
          refine ⟨fun hs => by simp at hs, fun _ _ => ?_⟩
          refine ⟨tr1 ++ l, data, d, hd, ?_, rfl⟩
          rw [htr2]
          simp

/-- Witness for `recompress_file_atomic`: the error half at a run whose
final rename fails, the success half at an all-success run. -/
theorem recompress_file_atomic_witness :
    (recompress_file envRrenameFail fsR true true).2.1.xz = fsR.xz ∧
    (∃ l data d, envRok.decompress fsR.xz = some data ∧
      (recompress_file envRok fsR true true).2.2 =
        l ++ [REvent.writeTmpFull, REvent.renameTmpToXz] ∧
      (recompress_file envRok fsR true true).2.1.xz =
        envRok.xzEncode d data) :=
  ⟨(recompress_file_atomic envRrenameFail fsR true true).1 rfl,
   (recompress_file_atomic envRok fsR true true).2 rfl rfl⟩

/-- C9: under the hypothesis that every checksum-cache entry equals the true
digest of the file at its (canonical) path, the digest written by
`generate_sha256` equals the digest recomputed from the file's bytes at
signing time; without a cache hit it is always the fresh digest. -/
theorem generate_sha256_digest_correct :
    ∀ (hash : List Nat → String) (cache : String → Option String)
      (canonical : String → String) (fileBytes : String → List Nat)
      (path : String),
      (∀ p c, cache p = some c → c = hash (fileBytes p)) →
      fileBytes (canonical path) = fileBytes path →
      generate_sha256 hash cache canonical path (fileBytes path) =
        hash (fileBytes path) := by
  intro hash cache canonical fileBytes path hcache hcanon
  cases h : cache (canonical path) with
  | none => simp [generate_sha256, h]
  | some c =>
    have hc := hcache _ _ h
    rw [hcanon] at hc
    simp [generate_sha256, h, hc]

/-- Witness for `generate_sha256_digest_correct` with a concrete hash
stand-in, an empty cache, and a concrete file. -/
theorem generate_sha256_digest_correct_witness :
    generate_sha256 (fun l => toString l.length) (fun _ => none) id
      "rustc.tar.xz" [1, 2, 3] = toString (3 : Nat) :=
  generate_sha256_digest_correct (fun l => toString l.length)
    (fun _ => none) id (fun _ => [1, 2, 3]) "rustc.tar.xz"
    (fun _ _ h => nomatch h) rfl

/-- C10: each of the five boolean configuration flags is true if and only if
the corresponding prefixed environment variable is present, regardless of
its value (so "0", "false" or the empty string still enable the flag). -/
theorem bool_env_flags_presence :
    ∀ env : String → Option String,
      ((config_flags_from_env env).bypass_startup_checks = true ↔
        (env "PROMOTE_RELEASE_BYPASS_STARTUP_CHECKS").isSome = true) ∧
      ((config_flags_from_env env).recompress_gz = true ↔
        (env "PROMOTE_RELEASE_RECOMPRESS_GZ").isSome = true) ∧
      ((config_flags_from_env env).recompress_xz = true ↔
        (env "PROMOTE_RELEASE_RECOMPRESS_XZ").isSome = true) ∧
      ((config_flags_from_env env).skip_cloudfront_invalidations = true ↔
        (env "PROMOTE_RELEASE_SKIP_CLOUDFRONT_INVALIDATIONS").isSome = true) ∧
      ((config_flags_from_env env).invalidate_fastly = true ↔
        (env "PROMOTE_RELEASE_INVALIDATE_FASTLY").isSome = true) := by
  intro env
  exact ⟨Iff.rfl, Iff.rfl, Iff.rfl, Iff.rfl, Iff.rfl⟩

end PromoteRelease
